import Mathlib

/-!
Verification development for the awsDeployTools repository.

The repository is a small orchestration tool with two source files:
a LightSailManager class (src/LightSailManager.mjs) and a CLI wrapper.
Below, each JavaScript operation is shallowly embedded as a Lean
function.  Remote invocations of the aws CLI are modelled by an
environment record holding the response of every call site, and each
method returns the list of remote calls it issued together with its
outcome (normal return or thrown error).

JavaScript string primitives (split, trim, includes, replace,
startsWith, toLowerCase restricted to the ASCII range that can occur
after the sanitising replace) are re-implemented structurally on the
character list of a string so that every definition reduces in the
kernel.
-/

set_option autoImplicit false

namespace AwsDeployTools

/-- Model of a thrown JavaScript error: zx process failures carry a
stderr payload (absent on plain errors) and every error has a message. -/
structure JsError where
  stderr : Option String
  msg : String
deriving DecidableEq

/-- Character-list test that the first list is an initial segment of the
second, mirroring how a JavaScript string method scans left to right. -/
def jsLeads : List Char → List Char → Bool
  | [], _ => true
  | _ :: _, [] => false
  | a :: as, b :: bs => a == b && jsLeads as bs

/-- Scan underlying the embedding of String.prototype.includes. -/
def jsIncludesAux (pat : List Char) : List Char → Bool
  | [] => pat == []
  | c :: cs => jsLeads pat (c :: cs) || jsIncludesAux pat cs

/-- Embedding of s.includes(pat) from JavaScript. -/
def jsIncludes (s pat : String) : Bool :=
  jsIncludesAux pat.data s.data

/-- Scan underlying the embedding of String.prototype.split with a
single-character separator. -/
def jsSplitAux (sep : Char) : List Char → List Char → List String
  | [], acc => [String.mk acc.reverse]
  | c :: cs, acc =>
    if c == sep then String.mk acc.reverse :: jsSplitAux sep cs []
    else jsSplitAux sep cs (c :: acc)

/-- Embedding of s.split(sep) for a one-character separator, as used by
domainName.split in the source. -/
def jsSplit (sep : Char) (s : String) : List String :=
  jsSplitAux sep s.data []

/-- Scan splitting a character list at whitespace. -/
def jsSplitWsAux : List Char → List Char → List String
  | [], acc => [String.mk acc.reverse]
  | c :: cs, acc =>
    if c.isWhitespace then String.mk acc.reverse :: jsSplitWsAux cs []
    else jsSplitWsAux cs (c :: acc)

/-- Embedding of stdout.split on a whitespace regular expression
followed by filter(Boolean), as the source uses to tokenise aws output:
the surviving tokens are exactly the maximal non-whitespace runs. -/
def jsTokens (s : String) : List String :=
  (jsSplitWsAux s.data []).filter (fun t => t != "")

/-- Embedding of String.prototype.trim. -/
def jsTrim (s : String) : String :=
  String.mk (((s.data.dropWhile Char.isWhitespace).reverse.dropWhile Char.isWhitespace).reverse)

/-- Embedding of s.startsWith(p). -/
def jsStartsWith (s p : String) : Bool :=
  jsLeads p.data s.data

/-- Embedding of the regex replace deleting one leading scheme, as in
url.replace of the source: an anchored https?:// match removes exactly
one scheme occurrence at the start of the string. -/
def jsStripScheme (s : String) : String :=
  if jsStartsWith s "https://" then String.mk (s.data.drop 8)
  else if jsStartsWith s "http://" then String.mk (s.data.drop 7)
  else s

/-- Embedding of the regex replace deleting one trailing slash: the
anchored match removes at most one final slash character. -/
def jsStripTrailingSlash (s : String) : String :=
  match s.data.getLast? with
  | some c => if c == '/' then String.mk s.data.dropLast else s
  | none => s

/-- The two-step replace chain applied verbatim at three places in the
source (the cleanCnameTarget helper, attachCert and updateDNS): drop one
leading scheme, then one trailing slash. -/
def urlReplaceChain (s : String) : String :=
  jsStripTrailingSlash (jsStripScheme s)

/-- Embedding of the cleanCnameTarget helper from the top of
LightSailManager.mjs, guard on the falsy (empty) string included. -/
def cleanCnameTarget (url : String) : String :=
  if url = "" then "" else urlReplaceChain url

/-- Scan underlying the embedding of String.prototype.replace with a
plain string pattern, which substitutes only the first occurrence. -/
def jsReplaceFirstAux (pat rep : List Char) : List Char → List Char
  | [] => if pat == [] then rep else []
  | c :: cs =>
    if jsLeads pat (c :: cs) then rep ++ (c :: cs).drop pat.length
    else c :: jsReplaceFirstAux pat rep cs

/-- Embedding of s.replace(pat, rep) for a string pattern: only the
first occurrence of pat is replaced. -/
def jsReplaceFirst (s pat rep : String) : String :=
  String.mk (jsReplaceFirstAux pat.data rep.data s.data)

/-- Join a list of labels with dots, the embedding of
parts.slice(1).join in the source. -/
def jsJoinDot : List String → String
  | [] => ""
  | [x] => x
  | x :: xs => x ++ "." ++ jsJoinDot xs

/-- Truthiness of an optional string argument: undefined and the empty
string are falsy in JavaScript. -/
def jsTruthy : Option String → Bool
  | none => false
  | some s => s != ""

/-- Character class [a-z0-9-], phrased on code points. -/
def isLowerAlnumDash (c : Char) : Bool :=
  decide ((97 ≤ c.toNat ∧ c.toNat ≤ 122) ∨ (48 ≤ c.toNat ∧ c.toNat ≤ 57) ∨ c.toNat = 45)

/-- Character class [a-zA-Z0-9-] kept by the sanitising regex replace
in certNameFromDomain. -/
def isCertKeepChar (c : Char) : Bool :=
  decide ((65 ≤ c.toNat ∧ c.toNat ≤ 90) ∨ (97 ≤ c.toNat ∧ c.toNat ≤ 122) ∨
    (48 ≤ c.toNat ∧ c.toNat ≤ 57) ∨ c.toNat = 45)

/-- Per-character action of the replace in certNameFromDomain: every
character outside [a-zA-Z0-9-] becomes a hyphen. -/
def certReplaceChar (c : Char) : Char :=
  if isCertKeepChar c then c else '-'

/-- Per-character action of toLowerCase on the characters that can
survive the sanitising replace (all ASCII): uppercase letters shift by
32 code points, everything else is fixed. -/
def jsAsciiLower (c : Char) : Char :=
  if 65 ≤ c.toNat ∧ c.toNat ≤ 90 then Char.ofNat (c.toNat + 32) else c

/-- Character-list composition of the replace and the toLowerCase of
certNameFromDomain. -/
def certSan (l : List Char) : List Char :=
  (l.map certReplaceChar).map jsAsciiLower

/-- Embedding of certNameFromDomain: sanitise, lowercase, append the
cert suffix. -/
def certNameFromDomain (domainName : String) : String :=
  String.mk (certSan domainName.data) ++ "-cert"

/-- Decidable match against the pattern of one or more characters from
[a-z0-9-] followed by the literal suffix -cert, anchored at both ends. -/
def matchesCertPattern (s : String) : Bool :=
  let l := s.data
  let k := l.length - 5
  (l.drop k == ('-' :: 'c' :: 'e' :: 'r' :: 't' :: [])) &&
    !(l.take k).isEmpty && (l.take k).all isLowerAlnumDash

/-- The fixed secondary region stored by the LightSailManager
constructor; the source comment notes Lightsail DNS is only there. -/
def defaultDNSRegion : String := "us-east-1"

/-- DNS entry object as it appears in aws get-domain JSON output and in
the entry literals built by the source; fields absent from a literal
are modelled as none. -/
structure DomainEntry where
  id : Option String
  name : String
  type : String
  target : String
  isAlias : Option Bool
deriving DecidableEq

/-- One invocation of the aws CLI, tagged with every datum the source
interpolates into the command line that matters to the claims: the
region, the resource names and any entry payload. -/
inductive RemoteCall where
  | getCertificates (region certName : String)
  | createCertificate (region certName domainName : String)
  | getDomainNames (region zoneName : String)
  | getContainerURL (region serviceName : String)
  | createDomainEntry (region zoneName : String) (entry : DomainEntry)
  | updateContainerService (region serviceName : String) (domains : List String)
  | getDomainEntries (region zoneName : String)
  | updateDomainEntry (region zoneName : String) (entry : DomainEntry)
deriving DecidableEq

/-- True exactly on the calls that change the record set of a DNS zone. -/
def mutatesZoneEntries : RemoteCall → Bool
  | RemoteCall.createDomainEntry _ _ _ => true
  | RemoteCall.updateDomainEntry _ _ _ => true
  | _ => false

/-- Responses of the remote calls attachCert can issue, one field per
call site, each either a thrown error or the produced value (stdout
text for queries). -/
structure AttachEnv where
  getCertsOut : Except JsError String
  createCertOut : Except JsError Unit
  getDomainOut : Except JsError String
  getServiceUrlOut : Except JsError String
  createEntryOut : Except JsError Unit
  updateServiceOut : Except JsError Unit

/-- Responses of the remote calls updateDNS can issue; the poll of the
propagation wait is indexed by the attempt number. -/
structure UpdateEnv where
  getServiceUrlOut : Except JsError String
  pollOut : Nat → Except JsError String
  getEntriesOut : Except JsError (List DomainEntry)
  updateEntryOut : Except JsError Unit

/-- Instance fields the source stores on this during attachCert and
reads later. -/
structure AttachResult where
  certName : String
  fullRecordName : String
deriving DecidableEq

/-- Embedding of the check err.stderr and err.stderr.includes(pat):
false when the error has no stderr payload. -/
def jsErrHasSub (e : JsError) (pat : String) : Bool :=
  match e.stderr with
  | some s => jsIncludes s pat
  | none => false

/-- Outcome of the certExists method given the response of its single
query: the catch-all swallows any thrown error and reports false, and
a successful query reports whether the trimmed stdout is non-empty. -/
def certExistsB (out : Except JsError String) : Bool :=
  match out with
  | Except.ok s => jsTrim s != ""
  | Except.error _ => false

/-- Domain decomposition inlined in attachCert: split on dots, two
labels mean the apex record, otherwise first label and joined rest. -/
def attachSplitDomain (domainName : String) : String × String :=
  let parts := jsSplit '.' domainName
  if parts.length = 2 then ("@", domainName)
  else (parts.headD "", jsJoinDot (parts.drop 1))

/-- Record-name and zone resolution of updateDNS: a truthy explicit
zone deletes the first dot-plus-zone occurrence from the domain and
keeps the zone as given; otherwise the decomposition is inferred the
same way as in attachCert. -/
def updRecordZone (domainName : String) (dnsZoneName : Option String) : String × String :=
  let parts := jsSplit '.' domainName
  if jsTruthy dnsZoneName then
    (jsReplaceFirst domainName ("." ++ dnsZoneName.getD "") "", dnsZoneName.getD "")
  else if parts.length = 2 then ("@", domainName)
  else (parts.headD "", jsJoinDot (parts.drop 1))

/-- Decimal rendering of m divided by 1000 as JavaScript prints the
number maxAttempts * delayMs / 1000: the integer part, then the up to
three fraction digits with trailing zeros dropped and no point when the
fraction is zero.  JavaScript prints the double nearest to m/1000 with
the shortest round-tripping decimal; because a decimal of at most 15
significant digits is recovered exactly from its nearest double, this
rendering coincides with the printed output for every m below 10^15. -/
def jsNumDiv1000Repr (m : Nat) : String :=
  let q := m / 1000
  let r := m % 1000
  if r = 0 then toString q
  else if r % 100 = 0 then toString q ++ "." ++ toString (r / 100)
  else if r % 10 = 0 then toString q ++ "." ++ toString (r / 100) ++ toString (r / 10 % 10)
  else toString q ++ "." ++ toString (r / 100) ++ toString (r / 10 % 10) ++ toString (r % 10)

/-- Timeout message thrown by waitForDomainEntry, rendering the elapsed
seconds maxAttempts * delayMs / 1000 the way the source's template
literal prints the JavaScript number. -/
def timeoutMsg (domainName : String) (maxAttempts delayMs : Nat) : String :=
  "Domain entry '" ++ domainName ++ "' did not appear in Lightsail DNS after " ++
    jsNumDiv1000Repr (maxAttempts * delayMs) ++ "s."

/-- Loop body of waitForDomainEntry: attempts already made and
remaining iterations of the while loop, returning the polls issued and
the outcome. -/
def waitAux (domainName zoneName : String) (poll : Nat → Except JsError String)
    (maxAttempts delayMs : Nat) : Nat → Nat → List RemoteCall × Except JsError Unit
  | _, 0 =>
    ([], Except.error { stderr := none, msg := timeoutMsg domainName maxAttempts delayMs })
  | attempts, r + 1 =>
    match poll attempts with
    | Except.error e => ([RemoteCall.getDomainNames defaultDNSRegion zoneName], Except.error e)
    | Except.ok out =>
      if (jsTokens out).contains domainName then
        ([RemoteCall.getDomainNames defaultDNSRegion zoneName], Except.ok ())
      else
        let rest := waitAux domainName zoneName poll maxAttempts delayMs (attempts + 1) r
        (RemoteCall.getDomainNames defaultDNSRegion zoneName :: rest.1, rest.2)

/-- Embedding of waitForDomainEntry: poll the zone for the record name
up to maxAttempts times; its region argument is accepted and ignored by
the source, which always queries the default DNS region. -/
def waitForDomainEntry (domainName zoneName region : String)
    (poll : Nat → Except JsError String) (maxAttempts delayMs : Nat) :
    List RemoteCall × Except JsError Unit :=
  waitAux domainName zoneName poll maxAttempts delayMs 0 maxAttempts

/-- Certificate name resolution at the top of attachCert: a truthy
explicit argument wins, otherwise the name is derived from the domain. -/
def attachCertName (domainName : String) (certNameOpt : Option String) : String :=
  if jsTruthy certNameOpt then certNameOpt.getD "" else certNameFromDomain domainName

/-- Certificate step of attachCert: the existence query is always
issued; when it reports the certificate absent the creation call is
issued, a creation failure whose stderr holds the already-exist marker
is treated as success, and any other creation failure is recorded as
the error to rethrow. -/
def attachCertStep (g : Except JsError String) (c : Except JsError Unit)
    (region certName domainName : String) : List RemoteCall × Option JsError :=
  let tCert : List RemoteCall := [RemoteCall.getCertificates region certName]
  if certExistsB g then (tCert, none)
  else
    let t := tCert ++ [RemoteCall.createCertificate defaultDNSRegion certName domainName]
    match c with
    | Except.ok _ => (t, none)
    | Except.error e => if jsErrHasSub e "already exist" then (t, none) else (t, some e)

/-- Full record name computed by attachCert from the decomposition: the
zone itself for the apex record, otherwise the record name dotted with
the zone. -/
def attachFullRecordName (domainName : String) : String :=
  let rz := attachSplitDomain domainName
  if rz.1 == "@" then rz.2 else rz.1 ++ "." ++ rz.2

/-- Embedding of attachCert: derive the certificate name, query and
possibly create the certificate (treating an already-exist stderr as
success), decompose the domain, list the zone, fetch the container
URL, create the CNAME when the full record name is not listed
(treating an already-exists stderr as success), and map the domain
onto the container service. -/
def attachCert (env : AttachEnv) (region containerName domainName : String)
    (certNameOpt : Option String) : List RemoteCall × Except JsError AttachResult :=
  let certName := attachCertName domainName certNameOpt
  let created := attachCertStep env.getCertsOut env.createCertOut region certName domainName
  match created.2 with
  | some e => (created.1, Except.error e)
  | none =>
    let rz := attachSplitDomain domainName
    let recordName := rz.1
    let zoneName := rz.2
    let t1 := created.1 ++ [RemoteCall.getDomainNames defaultDNSRegion zoneName]
    match env.getDomainOut with
    | Except.error e => (t1, Except.error e)
    | Except.ok dnsOut =>
      let existingRecords := jsTokens dnsOut
      let fullRecordName := attachFullRecordName domainName
      let t2 := t1 ++ [RemoteCall.getContainerURL region containerName]
      match env.getServiceUrlOut with
      | Except.error e => (t2, Except.error e)
      | Except.ok urlOut =>
        let containerURL := urlReplaceChain (jsTrim urlOut)
        let cnameStep : List RemoteCall × Option JsError :=
          if !(existingRecords.contains fullRecordName) then
            let entry : DomainEntry :=
              { id := none, name := fullRecordName, type := "CNAME",
                target := containerURL, isAlias := none }
            let t3 := t2 ++ [RemoteCall.createDomainEntry defaultDNSRegion zoneName entry]
            match env.createEntryOut with
            | Except.ok _ => (t3, none)
            | Except.error e => if jsErrHasSub e "already exists" then (t3, none) else (t3, some e)
          else (t2, none)
        match cnameStep.2 with
        | some e => (cnameStep.1, Except.error e)
        | none =>
          let t4 := cnameStep.1 ++ [RemoteCall.updateContainerService region containerName [domainName]]
          match env.updateServiceOut with
          | Except.error e => (t4, Except.error e)
          | Except.ok _ =>
            (t4, Except.ok { certName := certName, fullRecordName := fullRecordName })

/-- Embedding of updateDNS: validate the label count, resolve record
and zone, fetch the container URL, wait for the full record name to
propagate, fetch zone entries, and update the matching A entry in
place when one exists; in the not-found branch the source constructs a
fresh entry object but issues no call at all, so the embedding emits
nothing there. -/
def updateDNS (env : UpdateEnv) (region containerName domainName : String)
    (dnsZoneNameOpt : Option String) (fullRecordName : String) :
    List RemoteCall × Except JsError Unit :=
  let parts := jsSplit '.' domainName
  if parts.length < 2 then
    ([], Except.error { stderr := none, msg := "Invalid domain name provided." })
  else
    let rz := updRecordZone domainName dnsZoneNameOpt
    let recordName := rz.1
    let dnsZoneName := rz.2
    let t0 := [RemoteCall.getContainerURL region containerName]
    match env.getServiceUrlOut with
    | Except.error e => (t0, Except.error e)
    | Except.ok urlOut =>
      let containerURL := jsTrim urlOut
      let w := waitForDomainEntry fullRecordName dnsZoneName defaultDNSRegion env.pollOut 10 5000
      let t1 := t0 ++ w.1
      match w.2 with
      | Except.error e => (t1, Except.error e)
      | Except.ok _ =>
        let t2 := t1 ++ [RemoteCall.getDomainEntries defaultDNSRegion dnsZoneName]
        match env.getEntriesOut with
        | Except.error e => (t2, Except.error e)
        | Except.ok entries =>
          let existingEntry := entries.find? (fun en => en.name == recordName && en.type == "A")
          let cleanTarget := urlReplaceChain containerURL
          match existingEntry with
          | some ex =>
            let updatedEntry : DomainEntry :=
              { id := ex.id, name := ex.name, type := ex.type,
                target := cleanTarget, isAlias := some true }
            let t3 := t2 ++ [RemoteCall.updateDomainEntry region dnsZoneName updatedEntry]
            match env.updateEntryOut with
            | Except.error e => (t3, Except.error e)
            | Except.ok _ => (t3, Except.ok ())
          | none => (t2, Except.ok ())

/-- Embedding of the CLI action: run attachCert, then updateDNS with
the full record name attachCert stored on the instance; the first
thrown error aborts the run. -/
def runCommand (aEnv : AttachEnv) (uEnv : UpdateEnv)
    (region containerName domainName : String)
    (certNameOpt dnsZoneNameOpt : Option String) :
    List RemoteCall × Except JsError Unit :=
  let a := attachCert aEnv region containerName domainName certNameOpt
  match a.2 with
  | Except.error e => (a.1, Except.error e)
  | Except.ok st =>
    let u := updateDNS uEnv region containerName domainName dnsZoneNameOpt st.fullRecordName
    (a.1 ++ u.1, u.2)

/-- Process exit code produced by the CLI action for an outcome. -/
def exitCode (r : Except JsError Unit) : Nat :=
  match r with
  | Except.ok _ => 0
  | Except.error _ => 1

/-- Error line the CLI action prints to standard error on failure. -/
def errorLineOf (r : Except JsError Unit) : Option String :=
  match r with
  | Except.ok _ => none
  | Except.error e => some ("❌ Error: " ++ e.msg)

/-! Helper lemmas about the embedded JavaScript string primitives. -/

theorem charToNat_ofNat (n : Nat) (h : n.isValidChar) : (Char.ofNat n).toNat = n := by
  simp [Char.ofNat, h, Char.ofNatAux, Char.toNat, UInt32.toNat]

theorem jsLeads_append (p r : List Char) : jsLeads p (p ++ r) = true := by
  induction p with
  | nil => rfl
  | cons c cs ih => simp [jsLeads, ih]

theorem jsLeads_length_le (p : List Char) :
    ∀ l, jsLeads p l = true → p.length ≤ l.length := by
  induction p with
  | nil => intro l _; simp
  | cons c cs ih =>
    intro l h
    cases l with
    | nil => simp [jsLeads] at h
    | cons b bs =>
      simp only [jsLeads, Bool.and_eq_true] at h
      have := ih bs h.2
      simp only [List.length_cons]
      omega

theorem jsIncludesAux_self_append (pat r : List Char) :
    jsIncludesAux pat (pat ++ r) = true := by
  cases pat with
  | nil =>
    cases r with
    | nil => rfl
    | cons c cs => simp [jsIncludesAux, jsLeads]
  | cons c cs =>
    simp only [jsIncludesAux, List.cons_append, Bool.or_eq_true]
    exact Or.inl (jsLeads_append (c :: cs) r)

theorem jsIncludesAux_append_left (pat l a : List Char)
    (h : jsIncludesAux pat l = true) : jsIncludesAux pat (a ++ l) = true := by
  induction a with
  | nil => simpa using h
  | cons c cs ih => simp [jsIncludesAux, ih]

theorem jsIncludes_append_mid (a pat b : String) :
    jsIncludes (a ++ pat ++ b) pat = true := by
  unfold jsIncludes
  rw [String.data_append, String.data_append, List.append_assoc]
  exact jsIncludesAux_append_left _ _ _ (jsIncludesAux_self_append _ _)

theorem strAppend_assoc (a b c : String) : a ++ b ++ c = a ++ (b ++ c) := by
  apply String.ext
  simp [String.data_append]

theorem jsReplaceFirstAux_of_longer (pat rep : List Char) :
    ∀ l, l.length < pat.length → jsReplaceFirstAux pat rep l = l := by
  intro l
  induction l with
  | nil =>
    intro h
    have hne : (pat == []) = false := by
      cases pat with
      | nil => simp at h
      | cons x xs => rfl
    simp [jsReplaceFirstAux, hne]
  | cons c cs ih =>
    intro h
    have hl : jsLeads pat (c :: cs) = false := by
      cases hj : jsLeads pat (c :: cs) with
      | false => rfl
      | true =>
        have := jsLeads_length_le pat (c :: cs) hj
        simp only [List.length_cons] at this h
        omega
    have hcs : cs.length < pat.length := by
      simp only [List.length_cons] at h
      omega
    simp [jsReplaceFirstAux, hl, ih hcs]

theorem jsReplaceFirst_longPat (s pat rep : String)
    (h : s.data.length < pat.data.length) : jsReplaceFirst s pat rep = s := by
  unfold jsReplaceFirst
  rw [jsReplaceFirstAux_of_longer _ _ _ h]

/-! Helper lemmas about the certificate-name sanitiser. -/

theorem certSanChar_mem (c : Char) :
    isLowerAlnumDash (jsAsciiLower (certReplaceChar c)) = true := by
  by_cases hk : isCertKeepChar c = true
  · unfold certReplaceChar
    rw [if_pos hk]
    unfold isCertKeepChar at hk
    rw [decide_eq_true_iff] at hk
    unfold jsAsciiLower isLowerAlnumDash
    rcases hk with h | h | h | h
    · rw [if_pos h]
      have hv : (c.toNat + 32).isValidChar := Or.inl (by omega)
      rw [decide_eq_true_iff, charToNat_ofNat _ hv]
      omega
    · rw [if_neg (by omega), decide_eq_true_iff]; omega
    · rw [if_neg (by omega), decide_eq_true_iff]; omega
    · rw [if_neg (by omega), decide_eq_true_iff]; omega
  · unfold certReplaceChar
    rw [if_neg hk]
    decide

theorem certSanChar_fix (c : Char) (h : isLowerAlnumDash c = true) :
    jsAsciiLower (certReplaceChar c) = c := by
  unfold isLowerAlnumDash at h
  rw [decide_eq_true_iff] at h
  have hk : isCertKeepChar c = true := by
    unfold isCertKeepChar
    rw [decide_eq_true_iff]
    rcases h with h | h | h
    · exact Or.inr (Or.inl h)
    · exact Or.inr (Or.inr (Or.inl h))
    · exact Or.inr (Or.inr (Or.inr h))
  unfold certReplaceChar
  rw [if_pos hk]
  unfold jsAsciiLower
  rw [if_neg (by rcases h with h | h | h <;> omega)]

theorem certSan_eq_map (l : List Char) :
    certSan l = l.map (fun c => jsAsciiLower (certReplaceChar c)) := by
  simp [certSan]

theorem certSan_append (a b : List Char) :
    certSan (a ++ b) = certSan a ++ certSan b := by
  simp [certSan]

theorem certSan_idem (l : List Char) : certSan (certSan l) = certSan l := by
  simp only [certSan_eq_map, List.map_map]
  refine List.map_congr_left ?_
  intro c _
  simp only [Function.comp_apply]
  exact certSanChar_fix _ (certSanChar_mem c)

theorem certSan_length (l : List Char) : (certSan l).length = l.length := by
  simp [certSan]

theorem certName_data (d : String) :
    (certNameFromDomain d).data = certSan d.data ++ ('-' :: 'c' :: 'e' :: 'r' :: 't' :: []) := by
  unfold certNameFromDomain
  rw [String.data_append]

/-! Helper lemmas about the propagation-wait loop. -/

theorem waitAux_never (dn zn : String) (poll : Nat → Except JsError String) (ma dm : Nat)
    (h : ∀ i, ∃ s, poll i = Except.ok s ∧ (jsTokens s).contains dn = false) :
    ∀ rem att, waitAux dn zn poll ma dm att rem =
      (List.replicate rem (RemoteCall.getDomainNames defaultDNSRegion zn),
       Except.error { stderr := none, msg := timeoutMsg dn ma dm }) := by
  intro rem
  induction rem with
  | zero => intro att; rfl
  | succ r ih =>
    intro att
    obtain ⟨s, hs, hc⟩ := h att
    have hm : ¬ dn ∈ jsTokens s := by simpa using hc
    simp [waitAux, hs, hm, ih (att + 1), List.replicate_succ]

theorem waitAux_found (dn zn : String) (poll : Nat → Except JsError String) (ma dm : Nat) :
    ∀ k att rem, k < rem →
      (∀ j, j < k → ∃ s, poll (att + j) = Except.ok s ∧ (jsTokens s).contains dn = false) →
      (∃ s, poll (att + k) = Except.ok s ∧ (jsTokens s).contains dn = true) →
      waitAux dn zn poll ma dm att rem =
        (List.replicate (k + 1) (RemoteCall.getDomainNames defaultDNSRegion zn),
         Except.ok ()) := by
  intro k
  induction k with
  | zero =>
    intro att rem hrem hskip hfound
    obtain ⟨s, hs, hc⟩ := hfound
    rw [Nat.add_zero] at hs
    cases rem with
    | zero => omega
    | succ r =>
      have hm : dn ∈ jsTokens s := by simpa using hc
      simp [waitAux, hs, hm, List.replicate_succ]
  | succ k ih =>
    intro att rem hrem hskip hfound
    cases rem with
    | zero => omega
    | succ r =>
      obtain ⟨s0, hs0, hc0⟩ := hskip 0 (by omega)
      rw [Nat.add_zero] at hs0
      have hskip1 : ∀ j, j < k →
          ∃ s, poll (att + 1 + j) = Except.ok s ∧ (jsTokens s).contains dn = false := by
        intro j hj
        have heq : att + 1 + j = att + (j + 1) := by omega
        rw [heq]
        exact hskip (j + 1) (by omega)
      have hfound1 : ∃ s, poll (att + 1 + k) = Except.ok s ∧
          (jsTokens s).contains dn = true := by
        have heq : att + 1 + k = att + (k + 1) := by omega
        rw [heq]
        exact hfound
      have ihh := ih (att + 1) r (by omega) hskip1 hfound1
      have hm0 : ¬ dn ∈ jsTokens s0 := by simpa using hc0
      simp [waitAux, hs0, hm0, ihh, List.replicate_succ]

theorem waitAux_calls (dn zn : String) (poll : Nat → Except JsError String) (ma dm : Nat) :
    ∀ rem att, ((waitAux dn zn poll ma dm att rem).1.all
      (fun c => !mutatesZoneEntries c)) = true := by
  intro rem
  induction rem with
  | zero => intro att; rfl
  | succ r ih =>
    intro att
    cases hp : poll att with
    | error e => simp [waitAux, hp, mutatesZoneEntries]
    | ok s =>
      by_cases hm : dn ∈ jsTokens s
      · simp [waitAux, hp, hm, mutatesZoneEntries]
      · have hif : ((jsTokens s).contains dn) = false := by simpa using hm
        simp only [waitAux, hp, hif, Bool.false_eq_true, if_false, List.all_cons,
          Bool.and_eq_true]
        exact ⟨rfl, ih (att + 1)⟩

theorem waitForDomainEntry_calls (dn zn region : String)
    (poll : Nat → Except JsError String) (ma dm : Nat) :
    ((waitForDomainEntry dn zn region poll ma dm).1.all
      (fun c => !mutatesZoneEntries c)) = true :=
  waitAux_calls dn zn poll ma dm ma 0

theorem waitAux_error (dn zn : String) (poll : Nat → Except JsError String) (ma dm : Nat)
    (e : JsError) :
    ∀ k att rem, k < rem →
      (∀ j, j < k → ∃ s, poll (att + j) = Except.ok s ∧ (jsTokens s).contains dn = false) →
      poll (att + k) = Except.error e →
      waitAux dn zn poll ma dm att rem =
        (List.replicate (k + 1) (RemoteCall.getDomainNames defaultDNSRegion zn),
         Except.error e) := by
  intro k
  induction k with
  | zero =>
    intro att rem hrem hskip hp
    rw [Nat.add_zero] at hp
    cases rem with
    | zero => omega
    | succ r => simp [waitAux, hp, List.replicate_succ]
  | succ k ih =>
    intro att rem hrem hskip hp
    cases rem with
    | zero => omega
    | succ r =>
      obtain ⟨s0, hs0, hc0⟩ := hskip 0 (by omega)
      rw [Nat.add_zero] at hs0
      have hskip1 : ∀ j, j < k →
          ∃ s, poll (att + 1 + j) = Except.ok s ∧ (jsTokens s).contains dn = false := by
        intro j hj
        have heq : att + 1 + j = att + (j + 1) := by omega
        rw [heq]
        exact hskip (j + 1) (by omega)
      have hp1 : poll (att + 1 + k) = Except.error e := by
        have heq : att + 1 + k = att + (k + 1) := by omega
        rw [heq]
        exact hp
      have ihh := ih (att + 1) r (by omega) hskip1 hp1
      have hm0 : ¬ dn ∈ jsTokens s0 := by simpa using hc0
      simp [waitAux, hs0, hm0, ihh, List.replicate_succ]

theorem attachCertStep_head (g : Except JsError String) (c : Except JsError Unit)
    (region certName domainName : String) :
    ∃ x, (attachCertStep g c region certName domainName).1 =
      RemoteCall.getCertificates region certName :: x := by
  unfold attachCertStep
  by_cases hg : certExistsB g = true
  · exact ⟨[], by simp [hg]⟩
  · cases c with
    | ok _ =>
      exact ⟨[RemoteCall.createCertificate defaultDNSRegion certName domainName],
        by simp [hg]⟩
    | error e =>
      by_cases hr : jsErrHasSub e "already exist" = true <;>
        exact ⟨[RemoteCall.createCertificate defaultDNSRegion certName domainName],
          by simp [hg, hr]⟩

theorem attachCert_first_call (env : AttachEnv) (region containerName domainName : String)
    (certNameOpt : Option String) :
    ∃ t, (attachCert env region containerName domainName certNameOpt).1 =
      RemoteCall.getCertificates region (attachCertName domainName certNameOpt) :: t := by
  obtain ⟨g, c, d0, u, ce, us⟩ := env
  obtain ⟨x, hx⟩ :=
    attachCertStep_head g c region (attachCertName domainName certNameOpt) domainName
  unfold attachCert
  cases h2 : (attachCertStep g c region (attachCertName domainName certNameOpt) domainName).2 <;>
    cases d0 <;> cases u <;> cases ce <;> cases us <;>
    simp [h2, hx] <;> split_ifs <;> simp [hx]

/-! Claim theorems. -/

/-- C1: with no explicit DNS zone, both attachCert and updateDNS split
the domain on dots; exactly two labels give the apex record name and the
domain itself as zone, more than two give the first label as record name
and the remaining labels joined by dots as zone, and the two methods
compute the same decomposition. -/
theorem c1_domain_decomposition : ∀ d : String,
    ((jsSplit '.' d).length = 2 →
      attachSplitDomain d = ("@", d) ∧ updRecordZone d none = ("@", d)) ∧
    (2 < (jsSplit '.' d).length →
      attachSplitDomain d = ((jsSplit '.' d).headD "", jsJoinDot ((jsSplit '.' d).drop 1)) ∧
      updRecordZone d none = ((jsSplit '.' d).headD "", jsJoinDot ((jsSplit '.' d).drop 1))) ∧
    attachSplitDomain d = updRecordZone d none := by
  intro d
  refine ⟨?_, ?_, ?_⟩
  · intro h
    constructor <;> simp [attachSplitDomain, updRecordZone, jsTruthy, h]
  · intro h
    have h2 : ¬ (jsSplit '.' d).length = 2 := by omega
    constructor <;> simp [attachSplitDomain, updRecordZone, jsTruthy, h2]
  · by_cases h : (jsSplit '.' d).length = 2 <;>
      simp [attachSplitDomain, updRecordZone, jsTruthy, h]

/-- Witness for C1 at a two-label and a three-label domain. -/
theorem c1_domain_decomposition_witness :
    attachSplitDomain "example.com" = ("@", "example.com") ∧
    attachSplitDomain "app.example.com" = ("app", "example.com") := by
  constructor
  · exact ((c1_domain_decomposition "example.com").1 (by decide)).1
  · have h := ((c1_domain_decomposition "app.example.com").2.1 (by decide)).1
    rw [h]
    decide

/-- C7 counterexample: certNameFromDomain is not idempotent; a second
application appends a second -cert suffix. -/
theorem c7_counterexample :
    certNameFromDomain (certNameFromDomain "a.b") ≠ certNameFromDomain "a.b" := by
  decide

/-- C7 amended: a second application of certNameFromDomain appends one
more -cert suffix to the first result, and for every non-empty domain
the output matches the anchored pattern of one or more characters from
[a-z0-9-] followed by -cert. -/
theorem c7_certname_amended : ∀ d : String,
    certNameFromDomain (certNameFromDomain d) = certNameFromDomain d ++ "-cert" ∧
    (d ≠ "" → matchesCertPattern (certNameFromDomain d) = true) := by
  intro d
  constructor
  · apply String.ext
    rw [String.data_append, certName_data, certName_data, certSan_append, certSan_idem]
    have hsuf : certSan ('-' :: 'c' :: 'e' :: 'r' :: 't' :: []) =
        ('-' :: 'c' :: 'e' :: 'r' :: 't' :: []) := by decide
    have hlit : "-cert".data = ('-' :: 'c' :: 'e' :: 'r' :: 't' :: []) := rfl
    rw [hsuf, hlit]
  · intro hne
    have hdata : d.data ≠ [] := by
      intro h0
      exact hne (String.ext (by rw [h0]))
    have hlen : (certSan d.data ++ ('-' :: 'c' :: 'e' :: 'r' :: 't' :: [])).length - 5 =
        (certSan d.data).length := by
      simp
    have hne2 : certSan d.data ≠ [] := by
      rw [certSan_eq_map]
      simpa using hdata
    have hall : (certSan d.data).all isLowerAlnumDash = true := by
      rw [certSan_eq_map, List.all_eq_true]
      intro x hx
      obtain ⟨c, _, rfl⟩ := List.mem_map.mp hx
      exact certSanChar_mem c
    simp only [matchesCertPattern, certName_data, hlen, List.take_left, List.drop_left, hall]
    simp [hne2]

/-- Witness for C7 amended at a concrete domain. -/
theorem c7_certname_amended_witness :
    certNameFromDomain (certNameFromDomain "a.b") = certNameFromDomain "a.b" ++ "-cert" ∧
    matchesCertPattern (certNameFromDomain "a.b") = true :=
  ⟨(c7_certname_amended "a.b").1, (c7_certname_amended "a.b").2 (by decide)⟩

/-- C8: the URL normalisation strips exactly one leading scheme and one
trailing slash on the two sample inputs, and the inline replace chain
used for the CNAME target in attachCert and for the A-record target in
updateDNS agrees with the cleanCnameTarget helper on every input. -/
theorem c8_target_normalization :
    cleanCnameTarget "https://a.b.c/" = "a.b.c" ∧
    cleanCnameTarget "a.b.c" = "a.b.c" ∧
    ∀ url : String, urlReplaceChain url = cleanCnameTarget url := by
  refine ⟨by decide, by decide, ?_⟩
  intro url
  by_cases h : url = ""
  · subst h; decide
  · simp [cleanCnameTarget, h]

/-- C10: with a truthy explicit zone, updateDNS computes the record name
by deleting the first occurrence of a dot followed by the zone from the
domain and keeps the zone as supplied; when the domain equals the zone
the pattern does not occur and the record name is the whole domain,
unlike the inferred path which yields the apex marker for two labels. -/
theorem c10_explicit_zone_record : ∀ (d z : String), z ≠ "" →
    ((updRecordZone d (some z)).1 = jsReplaceFirst d ("." ++ z) "" ∧
      (updRecordZone d (some z)).2 = z) ∧
    (d = z → (updRecordZone d (some z)).1 = d) ∧
    ((jsSplit '.' d).length = 2 → (updRecordZone d none).1 = "@") := by
  intro d z hz
  have ht : jsTruthy (some z) = true := by simp [jsTruthy, hz]
  refine ⟨?_, ?_, ?_⟩
  · constructor <;> simp [updRecordZone, ht]
  · intro hd
    subst hd
    have h1 : (updRecordZone d (some d)).1 = jsReplaceFirst d ("." ++ d) "" := by
      simp [updRecordZone, ht]
    rw [h1]
    apply jsReplaceFirst_longPat
    rw [String.data_append, List.length_append, (show (".".data).length = 1 from rfl)]
    omega
  · intro h
    simp [updRecordZone, jsTruthy, h]

/-- Witness for C10 at the domain-equals-zone case and the inferred apex
case. -/
theorem c10_explicit_zone_record_witness :
    (updRecordZone "example.com" (some "example.com")).1 = "example.com" ∧
    (updRecordZone "a.b" none).1 = "@" := by
  constructor
  · exact (c10_explicit_zone_record "example.com" "example.com" (by decide)).2.1 rfl
  · exact (c10_explicit_zone_record "a.b" "x" (by decide)).2.2 (by decide)

/-- Concrete attachCert environment in which every remote call
succeeds, the certificate query returns no match and the zone listing is
empty. -/
def attachEnvAllOk : AttachEnv :=
  { getCertsOut := Except.ok "", createCertOut := Except.ok (),
    getDomainOut := Except.ok "", getServiceUrlOut := Except.ok "https://x.y/",
    createEntryOut := Except.ok (), updateServiceOut := Except.ok () }

/-- Concrete updateDNS environment in which every remote call succeeds,
the first poll already lists the record and the zone has no entries. -/
def updateEnvBenign : UpdateEnv :=
  { getServiceUrlOut := Except.ok "https://x.y/",
    pollOut := fun _ => Except.ok "app.example.com",
    getEntriesOut := Except.ok [], updateEntryOut := Except.ok () }

/-- C3 counterexample: on the one-label domain the full command still
issues six remote calls, listed here in order with the certificate
query first, before ending in the validation error, so the command
does not fail fast before any remote call. -/
theorem c3_counterexample :
    runCommand attachEnvAllOk updateEnvBenign "ca-central-1" "cont" "localhost"
      none none =
      ([RemoteCall.getCertificates "ca-central-1" "localhost-cert",
        RemoteCall.createCertificate "us-east-1" "localhost-cert" "localhost",
        RemoteCall.getDomainNames "us-east-1" "",
        RemoteCall.getContainerURL "ca-central-1" "cont",
        RemoteCall.createDomainEntry "us-east-1" ""
          { id := none, name := "localhost.", type := "CNAME", target := "x.y",
            isAlias := none },
        RemoteCall.updateContainerService "ca-central-1" "cont" ["localhost"]],
       Except.error { stderr := none, msg := "Invalid domain name provided." }) := by
  rfl

/-- C3 amended: the fewer-than-two-labels validation lives in updateDNS,
which throws the descriptive error before issuing any of its own remote
calls; the command as a whole, however, never fails before a remote
call, because on every run and every input its first action is the
certificate-existence query issued by attachCert, which performs no
label-count validation. -/
theorem c3_failfast_amended :
    (∀ (env : UpdateEnv) (region containerName domainName : String)
      (dnsZoneNameOpt : Option String) (fullRecordName : String),
      (jsSplit '.' domainName).length < 2 →
      updateDNS env region containerName domainName dnsZoneNameOpt fullRecordName =
        ([], Except.error { stderr := none, msg := "Invalid domain name provided." })) ∧
    (∀ (aEnv : AttachEnv) (uEnv : UpdateEnv) (region containerName domainName : String)
      (certNameOpt dnsZoneNameOpt : Option String),
      (runCommand aEnv uEnv region containerName domainName certNameOpt
        dnsZoneNameOpt).1.take 1 =
        [RemoteCall.getCertificates region (attachCertName domainName certNameOpt)]) := by
  constructor
  · intro env region cn dn z frn h
    simp [updateDNS, h]
  · intro aEnv uEnv region cn dn cno zo
    obtain ⟨t, ht⟩ := attachCert_first_call aEnv region cn dn cno
    cases ha : (attachCert aEnv region cn dn cno).2 with
    | error e => simp [runCommand, ha, ht]
    | ok st => simp [runCommand, ha, ht]

/-- Witness for C3 amended at the one-label domain. -/
theorem c3_failfast_amended_witness :
    updateDNS updateEnvBenign "ca-central-1" "cont" "localhost" none "" =
      ([], Except.error { stderr := none, msg := "Invalid domain name provided." }) ∧
    (runCommand attachEnvAllOk updateEnvBenign "ca-central-1" "cont" "localhost"
      none none).1.take 1 =
      [RemoteCall.getCertificates "ca-central-1" (attachCertName "localhost" none)] :=
  ⟨c3_failfast_amended.1 updateEnvBenign "ca-central-1" "cont" "localhost" none ""
     (by decide),
   c3_failfast_amended.2 attachEnvAllOk updateEnvBenign "ca-central-1" "cont" "localhost"
     none none⟩

/-- Concrete updateDNS environment whose zone holds an A entry for the
record name, used to exhibit the region of the update call. -/
def updateEnvWithA : UpdateEnv :=
  { getServiceUrlOut := Except.ok "https://svc.aws/",
    pollOut := fun _ => Except.ok "app.example.com",
    getEntriesOut := Except.ok
      [{ id := some "id123", name := "app", type := "A",
         target := "old.target", isAlias := some false }],
    updateEntryOut := Except.ok () }

/-- C4 evaluation at the failing input: with the service region
ca-central-1, the update-domain-entry call of updateDNS is issued
against ca-central-1, not against the fixed DNS region us-east-1 that
every other certificate and DNS-zone call uses. -/
theorem c4_update_entry_region :
    updateDNS updateEnvWithA "ca-central-1" "cont" "app.example.com" none
      "app.example.com" =
      ([RemoteCall.getContainerURL "ca-central-1" "cont",
        RemoteCall.getDomainNames "us-east-1" "example.com",
        RemoteCall.getDomainEntries "us-east-1" "example.com",
        RemoteCall.updateDomainEntry "ca-central-1" "example.com"
          { id := some "id123", name := "app", type := "A",
            target := "svc.aws", isAlias := some true }],
       Except.ok ()) := by
  rfl

/-- C5: when no A entry with the computed record name exists, updateDNS
completes normally and its whole trace contains no create-domain-entry
and no update-domain-entry call, so the zone's record set is left
unchanged by that path. -/
theorem c5_not_found_noop :
    ∀ (poll : Nat → Except JsError String) (upd : Except JsError Unit)
      (region containerName domainName : String) (dnsZoneNameOpt : Option String)
      (fullRecordName urlOut : String) (entries : List DomainEntry),
      ¬ (jsSplit '.' domainName).length < 2 →
      (waitForDomainEntry fullRecordName (updRecordZone domainName dnsZoneNameOpt).2
        defaultDNSRegion poll 10 5000).2 = Except.ok () →
      entries.find? (fun en => en.name == (updRecordZone domainName dnsZoneNameOpt).1 &&
        en.type == "A") = none →
      (updateDNS ⟨Except.ok urlOut, poll, Except.ok entries, upd⟩ region containerName
        domainName dnsZoneNameOpt fullRecordName).2 = Except.ok () ∧
      ((updateDNS ⟨Except.ok urlOut, poll, Except.ok entries, upd⟩ region containerName
        domainName dnsZoneNameOpt fullRecordName).1.all
          (fun c => !mutatesZoneEntries c)) = true := by
  intro poll upd region cn dn zo frn urlOut entries hv hw hf
  constructor
  · simp [updateDNS, hv, hw, hf]
  · simp [updateDNS, hv, hw, hf, mutatesZoneEntries]
    intro x hx
    have h1 := waitForDomainEntry_calls frn (updRecordZone dn zo).2 defaultDNSRegion poll 10 5000
    rw [List.all_eq_true] at h1
    have h2 := h1 x hx
    simpa [mutatesZoneEntries] using h2

/-- Witness for C5 at a concrete environment with an empty entry list. -/
theorem c5_not_found_noop_witness :
    (updateDNS ⟨Except.ok "https://svc.aws/", fun _ => Except.ok "app.example.com",
      Except.ok [], Except.ok ()⟩ "ca-central-1" "cont" "app.example.com" none
      "app.example.com").2 = Except.ok () ∧
    ((updateDNS ⟨Except.ok "https://svc.aws/", fun _ => Except.ok "app.example.com",
      Except.ok [], Except.ok ()⟩ "ca-central-1" "cont" "app.example.com" none
      "app.example.com").1.all (fun c => !mutatesZoneEntries c)) = true :=
  c5_not_found_noop (fun _ => Except.ok "app.example.com") (Except.ok ())
    "ca-central-1" "cont" "app.example.com" none "app.example.com"
    "https://svc.aws/" [] (by decide) (by rfl) (by rfl)

/-- Concrete attachCert environment whose certificate-existence query
throws while everything else succeeds. -/
def attachEnvCertQueryFail : AttachEnv :=
  { getCertsOut := Except.error { stderr := some "ThrottlingException", msg := "aws CLI failed" },
    createCertOut := Except.ok (), getDomainOut := Except.ok "",
    getServiceUrlOut := Except.ok "https://x.y/",
    createEntryOut := Except.ok (), updateServiceOut := Except.ok () }

/-- C6 counterexample: a failure of the certificate-existence query is
not propagated; the command still completes with exit code 0. -/
theorem c6_counterexample :
    (runCommand attachEnvCertQueryFail updateEnvBenign "ca-central-1" "cont"
      "app.example.com" none none).2 = Except.ok () ∧
    exitCode (runCommand attachEnvCertQueryFail updateEnvBenign "ca-central-1" "cont"
      "app.example.com" none none).2 = 0 := by
  refine ⟨rfl, rfl⟩

/-- Propagation of an error to the top level of the CLI action: the
outcome is that very error, the process exit code is 1 and the single
error line carries the error's message. -/
def topFails (r : Except JsError Unit) (e : JsError) : Prop :=
  r = Except.error e ∧ exitCode r = 1 ∧ errorLineOf r = some ("❌ Error: " ++ e.msg)

theorem topFails_of (r : Except JsError Unit) (e : JsError) (h : r = Except.error e) :
    topFails r e := by
  subst h
  exact ⟨rfl, rfl, rfl⟩

/-- C6 amended: the certificate-existence query swallows its own
failures, reporting the certificate as absent; every other remote-call
failure outside the recognised already-exist(s) races and the
propagation timeout is propagated unchanged to the top level with the
single error line and exit code 1 — one clause per failing call site
(certificate creation with a non-race error, zone listing, container
URL fetch in attachCert, CNAME creation with a non-race error,
container-service update, container URL fetch in updateDNS, a failing
propagation poll at any attempt, the zone-entry fetch, and the A-record
update), each on a run reaching that site. -/
theorem c6_propagation_amended :
    (∀ e : JsError, certExistsB (Except.error e) = false) ∧
    (∀ (g : Except JsError String) (d0 u : Except JsError String) (ce us : Except JsError Unit)
       (uEnv : UpdateEnv) (e : JsError) (region cn dn : String) (cno zo : Option String),
      certExistsB g = false → jsErrHasSub e "already exist" = false →
      topFails (runCommand ⟨g, Except.error e, d0, u, ce, us⟩ uEnv region cn dn cno zo).2 e) ∧
    (∀ (g : Except JsError String) (c : Except JsError Unit) (u : Except JsError String)
       (ce us : Except JsError Unit) (uEnv : UpdateEnv) (e : JsError)
       (region cn dn : String) (cno zo : Option String),
      certExistsB g = true →
      topFails (runCommand ⟨g, c, Except.error e, u, ce, us⟩ uEnv region cn dn cno zo).2 e) ∧
    (∀ (g : Except JsError String) (c ce us : Except JsError Unit) (s : String)
       (uEnv : UpdateEnv) (e : JsError) (region cn dn : String) (cno zo : Option String),
      certExistsB g = true →
      topFails (runCommand ⟨g, c, Except.ok s, Except.error e, ce, us⟩ uEnv region cn dn
        cno zo).2 e) ∧
    (∀ (g : Except JsError String) (c us : Except JsError Unit) (s url : String)
       (uEnv : UpdateEnv) (e : JsError) (region cn dn : String) (cno zo : Option String),
      certExistsB g = true →
      (jsTokens s).contains (attachFullRecordName dn) = false →
      jsErrHasSub e "already exists" = false →
      topFails (runCommand ⟨g, c, Except.ok s, Except.ok url, Except.error e, us⟩ uEnv
        region cn dn cno zo).2 e) ∧
    (∀ (g : Except JsError String) (c ce : Except JsError Unit) (s url : String)
       (uEnv : UpdateEnv) (e : JsError) (region cn dn : String) (cno zo : Option String),
      certExistsB g = true →
      (jsTokens s).contains (attachFullRecordName dn) = true →
      topFails (runCommand ⟨g, c, Except.ok s, Except.ok url, ce, Except.error e⟩ uEnv
        region cn dn cno zo).2 e) ∧
    (∀ (aEnv : AttachEnv) (st : AttachResult) (poll : Nat → Except JsError String)
       (en2 : Except JsError (List DomainEntry)) (up2 : Except JsError Unit) (e : JsError)
       (region cn dn : String) (cno zo : Option String),
      (attachCert aEnv region cn dn cno).2 = Except.ok st →
      ¬ (jsSplit '.' dn).length < 2 →
      topFails (runCommand aEnv ⟨Except.error e, poll, en2, up2⟩ region cn dn cno zo).2 e) ∧
    (∀ (aEnv : AttachEnv) (st : AttachResult) (url : String)
       (poll : Nat → Except JsError String) (en2 : Except JsError (List DomainEntry))
       (up2 : Except JsError Unit) (e : JsError) (k : Nat)
       (region cn dn : String) (cno zo : Option String),
      (attachCert aEnv region cn dn cno).2 = Except.ok st →
      ¬ (jsSplit '.' dn).length < 2 →
      k < 10 →
      (∀ j, j < k → ∃ s, poll j = Except.ok s ∧
        (jsTokens s).contains st.fullRecordName = false) →
      poll k = Except.error e →
      topFails (runCommand aEnv ⟨Except.ok url, poll, en2, up2⟩ region cn dn cno zo).2 e) ∧
    (∀ (aEnv : AttachEnv) (st : AttachResult) (url : String)
       (poll : Nat → Except JsError String) (up2 : Except JsError Unit) (e : JsError)
       (region cn dn : String) (cno zo : Option String),
      (attachCert aEnv region cn dn cno).2 = Except.ok st →
      ¬ (jsSplit '.' dn).length < 2 →
      (waitForDomainEntry st.fullRecordName (updRecordZone dn zo).2 defaultDNSRegion poll
        10 5000).2 = Except.ok () →
      topFails (runCommand aEnv ⟨Except.ok url, poll, Except.error e, up2⟩ region cn dn
        cno zo).2 e) ∧
    (∀ (aEnv : AttachEnv) (st : AttachResult) (url : String)
       (poll : Nat → Except JsError String) (entries : List DomainEntry) (ex : DomainEntry)
       (e : JsError) (region cn dn : String) (cno zo : Option String),
      (attachCert aEnv region cn dn cno).2 = Except.ok st →
      ¬ (jsSplit '.' dn).length < 2 →
      (waitForDomainEntry st.fullRecordName (updRecordZone dn zo).2 defaultDNSRegion poll
        10 5000).2 = Except.ok () →
      entries.find? (fun en => en.name == (updRecordZone dn zo).1 && en.type == "A") =
        some ex →
      topFails (runCommand aEnv ⟨Except.ok url, poll, Except.ok entries,
        Except.error e⟩ region cn dn cno zo).2 e) := by
  refine ⟨fun e => rfl, ?_, ?_, ?_, ?_, ?_, ?_, ?_, ?_, ?_⟩
  · intro g d0 u ce us uEnv e region cn dn cno zo hg hr
    exact topFails_of _ _ (by simp [runCommand, attachCert, attachCertStep, hg, hr])
  · intro g c u ce us uEnv e region cn dn cno zo hg
    exact topFails_of _ _ (by simp [runCommand, attachCert, attachCertStep, hg])
  · intro g c ce us s uEnv e region cn dn cno zo hg
    exact topFails_of _ _ (by simp [runCommand, attachCert, attachCertStep, hg])
  · intro g c us s url uEnv e region cn dn cno zo hg hcont hr
    have hm : ¬ attachFullRecordName dn ∈ jsTokens s := by simpa using hcont
    exact topFails_of _ _
      (by simp [runCommand, attachCert, attachCertStep, hg, hm, hr])
  · intro g c ce s url uEnv e region cn dn cno zo hg hcont
    have hm : attachFullRecordName dn ∈ jsTokens s := by simpa using hcont
    exact topFails_of _ _ (by simp [runCommand, attachCert, attachCertStep, hg, hm])
  · intro aEnv st poll en2 up2 e region cn dn cno zo hA hv
    exact topFails_of _ _ (by simp [runCommand, hA, updateDNS, hv])
  · intro aEnv st url poll en2 up2 e k region cn dn cno zo hA hv hk hskip hp
    have hskip0 : ∀ j, j < k → ∃ s, poll (0 + j) = Except.ok s ∧
        (jsTokens s).contains st.fullRecordName = false := by
      intro j hj
      rw [Nat.zero_add]
      exact hskip j hj
    have hp0 : poll (0 + k) = Except.error e := by
      rw [Nat.zero_add]
      exact hp
    have hw : (waitForDomainEntry st.fullRecordName (updRecordZone dn zo).2
        defaultDNSRegion poll 10 5000).2 = Except.error e := by
      unfold waitForDomainEntry
      rw [waitAux_error st.fullRecordName (updRecordZone dn zo).2 poll 10 5000 e k 0 10
        hk hskip0 hp0]
    exact topFails_of _ _ (by simp [runCommand, hA, updateDNS, hv, hw])
  · intro aEnv st url poll up2 e region cn dn cno zo hA hv hw
    exact topFails_of _ _ (by simp [runCommand, hA, updateDNS, hv, hw])
  · intro aEnv st url poll entries ex e region cn dn cno zo hA hv hw hf
    exact topFails_of _ _ (by simp [runCommand, hA, updateDNS, hv, hw, hf])

/-- Witness for C6 amended: a swallowed certificate-existence failure
beside a failing zone listing that propagates to exit code 1. -/
theorem c6_propagation_amended_witness :
    certExistsB (Except.error (JsError.mk (some "ThrottlingException") "aws CLI failed")) =
      false ∧
    topFails (runCommand ⟨Except.ok "x", Except.ok (),
      Except.error (JsError.mk none "boom"), Except.ok "https://x.y/",
      Except.ok (), Except.ok ()⟩ updateEnvBenign "ca-central-1" "cont" "app.example.com"
      none none).2 (JsError.mk none "boom") :=
  ⟨c6_propagation_amended.1 (JsError.mk (some "ThrottlingException") "aws CLI failed"),
   c6_propagation_amended.2.2.1 (Except.ok "x") (Except.ok ())
     (Except.ok "https://x.y/") (Except.ok ()) (Except.ok ()) updateEnvBenign
     (JsError.mk none "boom") "ca-central-1" "cont" "app.example.com"
     none none (by decide)⟩

/-- C9: when the certificate is absent and creation fails with a stderr
containing the already-exist marker, attachCert behaves exactly as if
the creation had succeeded; when the stderr lacks the marker, the very
error is rethrown as the method's outcome. -/
theorem c9_already_exist_race :
    ∀ (g : Except JsError String) (d u : Except JsError String)
      (ce us : Except JsError Unit) (e : JsError)
      (region containerName domainName : String) (certNameOpt : Option String),
      certExistsB g = false →
      (jsErrHasSub e "already exist" = true →
        attachCert ⟨g, Except.error e, d, u, ce, us⟩ region containerName domainName
          certNameOpt =
        attachCert ⟨g, Except.ok (), d, u, ce, us⟩ region containerName domainName
          certNameOpt) ∧
      (jsErrHasSub e "already exist" = false →
        (attachCert ⟨g, Except.error e, d, u, ce, us⟩ region containerName domainName
          certNameOpt).2 = Except.error e) := by
  intro g d u ce us e region cn dn cno hg
  constructor
  · intro h
    simp [attachCert, attachCertStep, hg, h]
  · intro h
    simp [attachCert, attachCertStep, hg, h]

/-- Concrete creation error carrying the already-exist marker. -/
def raceErr : JsError :=
  { stderr := some "InvalidInputException: Certificate already exists.", msg := "create failed" }

/-- Concrete creation error without the marker. -/
def otherErr : JsError :=
  { stderr := some "AccessDeniedException", msg := "create failed" }

/-- Witness for C9 at concrete environments for both the swallowed race
and the rethrown failure. -/
theorem c9_already_exist_race_witness :
    attachCert ⟨Except.ok "", Except.error raceErr, Except.ok "", Except.ok "https://x.y/",
      Except.ok (), Except.ok ()⟩ "ca-central-1" "cont" "app.example.com" none =
    attachCert ⟨Except.ok "", Except.ok (), Except.ok "", Except.ok "https://x.y/",
      Except.ok (), Except.ok ()⟩ "ca-central-1" "cont" "app.example.com" none ∧
    (attachCert ⟨Except.ok "", Except.error otherErr, Except.ok "", Except.ok "https://x.y/",
      Except.ok (), Except.ok ()⟩ "ca-central-1" "cont" "app.example.com" none).2 =
      Except.error otherErr := by
  constructor
  · exact (c9_already_exist_race (Except.ok "") (Except.ok "") (Except.ok "https://x.y/")
      (Except.ok ()) (Except.ok ()) raceErr "ca-central-1" "cont" "app.example.com" none
      (by decide)).1 (by decide)
  · exact (c9_already_exist_race (Except.ok "") (Except.ok "") (Except.ok "https://x.y/")
      (Except.ok ()) (Except.ok ()) otherErr "ca-central-1" "cont" "app.example.com" none
      (by decide)).2 (by decide)

/-- C2: with polls that never list the record, the propagation waiter
issues exactly maxAttempts polls and then fails with the timeout error,
whose message contains the did-not-appear marker and the elapsed
seconds maxAttempts * delayMs / 1000 followed by the seconds unit (the
product is bounded by 10^15, the range on which the embedded decimal
rendering provably equals the printed JavaScript number); with the
record first listed at poll k the waiter stops after exactly k+1 polls
and returns normally. -/
theorem c2_wait_polls :
    ∀ (domainName zoneName region : String) (poll : Nat → Except JsError String)
      (maxAttempts delayMs : Nat),
      ((∀ i, ∃ s, poll i = Except.ok s ∧ (jsTokens s).contains domainName = false) →
        maxAttempts * delayMs < 1000000000000000 →
        (waitForDomainEntry domainName zoneName region poll maxAttempts delayMs).1.length =
          maxAttempts ∧
        (waitForDomainEntry domainName zoneName region poll maxAttempts delayMs).2 =
          Except.error
            (JsError.mk none (timeoutMsg domainName maxAttempts delayMs)) ∧
        jsIncludes (timeoutMsg domainName maxAttempts delayMs)
          "did not appear" = true ∧
        jsIncludes (timeoutMsg domainName maxAttempts delayMs)
          (jsNumDiv1000Repr (maxAttempts * delayMs) ++ "s.") = true) ∧
      (∀ k, k < maxAttempts →
        (∀ j, j < k → ∃ s, poll j = Except.ok s ∧ (jsTokens s).contains domainName = false) →
        (∃ s, poll k = Except.ok s ∧ (jsTokens s).contains domainName = true) →
        (waitForDomainEntry domainName zoneName region poll maxAttempts delayMs).1.length =
          k + 1 ∧
        (waitForDomainEntry domainName zoneName region poll maxAttempts delayMs).2 =
          Except.ok ()) := by
  intro dn zn region poll ma dm
  constructor
  · intro h _
    have hrun := waitAux_never dn zn poll ma dm h ma 0
    unfold waitForDomainEntry
    rw [hrun]
    refine ⟨by simp, rfl, ?_, ?_⟩
    · have hsplit : timeoutMsg dn ma dm =
          ("Domain entry '" ++ dn ++ "' ") ++ "did not appear" ++
          (" in Lightsail DNS after " ++ jsNumDiv1000Repr (ma * dm) ++ "s.") := by
        unfold timeoutMsg
        apply String.ext
        simp [String.data_append]
      rw [hsplit]
      exact jsIncludes_append_mid _ _ _
    · have hsplit : timeoutMsg dn ma dm =
          ("Domain entry '" ++ dn ++ "' did not appear in Lightsail DNS after ") ++
          (jsNumDiv1000Repr (ma * dm) ++ "s.") ++ "" := by
        unfold timeoutMsg
        apply String.ext
        simp [String.data_append]
      rw [hsplit]
      exact jsIncludes_append_mid _ _ _
  · intro k hk hskip hfound
    have hskip0 : ∀ j, j < k →
        ∃ s, poll (0 + j) = Except.ok s ∧ (jsTokens s).contains dn = false := by
      intro j hj
      rw [Nat.zero_add]
      exact hskip j hj
    have hfound0 : ∃ s, poll (0 + k) = Except.ok s ∧ (jsTokens s).contains dn = true := by
      rw [Nat.zero_add]
      exact hfound
    have hrun := waitAux_found dn zn poll ma dm k 0 ma hk hskip0 hfound0
    unfold waitForDomainEntry
    rw [hrun]
    exact ⟨by simp, rfl⟩

/-- Witness for C2: a record that never appears with two polls of zero
delay, and a record present at the first poll. -/
theorem c2_wait_polls_witness :
    ((waitForDomainEntry "app.example.com" "example.com" "us-east-1"
        (fun _ => Except.ok "alpha beta") 2 0).1.length = 2 ∧
      (waitForDomainEntry "app.example.com" "example.com" "us-east-1"
        (fun _ => Except.ok "alpha beta") 2 0).2 =
        Except.error (JsError.mk none (timeoutMsg "app.example.com" 2 0)) ∧
      jsIncludes (timeoutMsg "app.example.com" 2 0) "did not appear" = true ∧
      jsIncludes (timeoutMsg "app.example.com" 2 0)
        (jsNumDiv1000Repr (2 * 0) ++ "s.") = true) ∧
    ((waitForDomainEntry "app.example.com" "example.com" "us-east-1"
        (fun _ => Except.ok "app.example.com") 2 0).1.length = 0 + 1 ∧
      (waitForDomainEntry "app.example.com" "example.com" "us-east-1"
        (fun _ => Except.ok "app.example.com") 2 0).2 = Except.ok ()) := by
  constructor
  · exact (c2_wait_polls "app.example.com" "example.com" "us-east-1"
      (fun _ => Except.ok "alpha beta") 2 0).1
      (fun i => ⟨"alpha beta", rfl, by decide⟩) (by norm_num)
  · exact (c2_wait_polls "app.example.com" "example.com" "us-east-1"
      (fun _ => Except.ok "app.example.com") 2 0).2 0 (by decide)
      (fun j hj => absurd hj (by omega))
      ⟨"app.example.com", rfl, by decide⟩

end AwsDeployTools
